import Mathlib

/-!
Verification of the BitAds core: a shallow embedding of
`src/common/services/bitads/impl.py` (visit ingestion, queue-item
reconciliation, pagination) and `src/neurons/miner/core.py` (campaign
scoring and rate-limited optimization), with theorems for the spec's
testable properties.

Monetary amounts are modelled as rationals (the Python code converts the
decimal strings with `float(...)` and only adds/subtracts them in the
paths verified here). Timestamps are modelled as integers.

The persistence layer (`common.db.repositories.bitads_data`) is not part
of the sources; its operations (`get_data`, `add_or_update`, `add_data`,
`filter_existing_ids`, paged range queries) are modelled from the spec's
store contract (§4.1) and marked as such in their doc comments. Service
methods themselves are translated from the Python source.
-/

namespace BitAds

/-- The `SalesStatus` enum from `common.schemas.sales`: a record starts `NONE`
and transitions to `COMPLETED`. -/
inductive SalesStatus where
  | NONE
  | COMPLETED
  deriving DecidableEq, Repr

/-- The `OrderQueueStatus` values used by `add_by_queue_items`. -/
inductive OrderQueueStatus where
  | VISIT_NOT_FOUND
  | PROCESSED
  | ERROR
  deriving DecidableEq, Repr

/-- Order info carried by a queue item: `totalAmount`, the line-item list
(modelled by its ids only; the reconciler only takes its length) and the
sale date. -/
structure OrderInfo where
  totalAmount : ℚ
  items : List String
  sale_date : Int
  deriving DecidableEq, Repr

/-- Refund info carried by a queue item: `totalAmount` and the refunded
line-item list (modelled by its ids only). -/
structure RefundInfo where
  totalAmount : ℚ
  items : List String
  deriving DecidableEq, Repr

/-- Record type `BitAdsDataSchema`: the canonical per-event record. Origin fields
(`campaign_id`, `campaign_item`, `ip_address`, `user_agent`,
`country_code`) are set at visit time; the remaining fields are mutated
by reconciliation. -/
structure BitAdsDataSchema where
  id : String
  campaign_id : String
  campaign_item : String
  ip_address : String
  user_agent : String
  country_code : String
  sales_status : SalesStatus
  sale_date : Option Int
  order_info : Option OrderInfo
  refund_info : Option RefundInfo
  validator_block : Int
  validator_hotkey : String
  sales : Nat
  sale_amount : ℚ
  refund : Nat
  deriving DecidableEq, Repr

/-- Schema `OrderQueueSchema`: an incoming sale/refund queue item referencing a
canonical record by `id`. -/
structure OrderQueueSchema where
  id : String
  order_info : OrderInfo
  refund_info : Option RefundInfo
  deriving DecidableEq, Repr

/-- The canonical record store, keyed by record id. -/
def Store : Type := String → Option BitAdsDataSchema

/-- Modelled from the spec: `bitads_data.get_data(session, id)` —
`get(id) -> record | absent` (§4.1). -/
def get_data (s : Store) (id : String) : Option BitAdsDataSchema := s id

/-- Modelled from the spec: the merge performed by the store's upsert —
"overwrite mutable fields (status, sale/refund info, attribution,
updatedAt) while preserving immutable origin fields of the existing row"
(§4.1). -/
def mergeRecord (old new : BitAdsDataSchema) : BitAdsDataSchema :=
  { old with
    sales_status := new.sales_status
    sale_date := new.sale_date
    order_info := new.order_info
    refund_info := new.refund_info
    validator_block := new.validator_block
    validator_hotkey := new.validator_hotkey
    sales := new.sales
    sale_amount := new.sale_amount
    refund := new.refund }

/-- Store update at one key. -/
def Store.insert (s : Store) (r : BitAdsDataSchema) : Store :=
  fun k => if k = r.id then some r else s k

/-- Modelled from the spec: `bitads_data.add_or_update(session, record)` —
"if no record exists for `record.id`, insert; otherwise overwrite mutable
fields ... Returns the resulting persisted record" (§4.1). -/
def add_or_update (s : Store) (r : BitAdsDataSchema) :
    BitAdsDataSchema × Store :=
  match s r.id with
  | some old => let m := mergeRecord old r; (m, s.insert m)
  | none => (r, s.insert r)

/-- An upsert backend for the reconciler: `none` models the Python
exception raised by a persistence failure (caught per item in
`add_by_queue_items`); `some` returns the persisted record and the new
store state. -/
def Upsert : Type := Store → BitAdsDataSchema → Option (BitAdsDataSchema × Store)

/-- The nominal backend: `add_or_update`, never failing. -/
def upsertOk : Upsert := fun s r => some (add_or_update s r)

/-- A backend that fails (raises) exactly on record ids in `bad`,
otherwise behaves like `add_or_update`; used to analyse per-item failure
isolation. -/
def upsertFailingOn (bad : List String) : Upsert := fun s r =>
  if r.id ∈ bad then none else some (add_or_update s r)

/-- The per-call result map of `add_by_queue_items`:
`Dict[str, Tuple[OrderQueueStatus, Optional[BitAdsDataSchema]]]`. -/
def ResultMap : Type := String → Option (OrderQueueStatus × Option BitAdsDataSchema)

/-- Empty result dict. -/
def ResultMap.empty : ResultMap := fun _ => none

/-- Dict assignment `result[id] = v`; later writes win. -/
def ResultMap.set (m : ResultMap) (id : String)
    (v : OrderQueueStatus × Option BitAdsDataSchema) : ResultMap :=
  fun k => if k = id then some v else m k

/-- The updated-record construction of `add_by_queue_items`
(impl.py lines 137-159): `sale_amount = orderTotal - refundTotal` (refund
total 0 when refund info absent), `sales = len(order items)`,
`refund = len(refund items)` (0 when absent), `sales_status` forced to
`COMPLETED` exactly when `refund` is nonzero, the remaining fields
copy-updated from the existing record (`model_copy(update=...)`). -/
def updatedRecord (existed_data : BitAdsDataSchema) (item : OrderQueueSchema)
    (validator_block : Int) (validator_hotkey : String) : BitAdsDataSchema :=
  let sale_amount : ℚ := item.order_info.totalAmount -
    (match item.refund_info with
     | some ri => ri.totalAmount
     | none => 0)
  let sales : Nat := item.order_info.items.length
  let refund : Nat :=
    match item.refund_info with
    | some ri => ri.items.length
    | none => 0
  { existed_data with
    sale_date := some item.order_info.sale_date
    order_info := some item.order_info
    refund_info := item.refund_info
    validator_block := validator_block
    validator_hotkey := validator_hotkey
    sales := sales
    sale_amount := sale_amount
    refund := refund
    sales_status :=
      if refund ≠ 0 then SalesStatus.COMPLETED
      else existed_data.sales_status }

/-- One iteration of the loop body of `add_by_queue_items`
(impl.py lines 132-165): look up the existing record; absent →
`VISIT_NOT_FOUND` with no write; otherwise build `updatedRecord` and
upsert it, recording `PROCESSED` with the persisted record on success
and `ERROR` with no record on exception. -/
def processQueueItem (upsert : Upsert) (validator_block : Int)
    (validator_hotkey : String) (st : Store × ResultMap)
    (item : OrderQueueSchema) : Store × ResultMap :=
  let (s, result) := st
  match get_data s item.id with
  | none => (s, result.set item.id (OrderQueueStatus.VISIT_NOT_FOUND, none))
  | some existed_data =>
    let new_data := updatedRecord existed_data item validator_block validator_hotkey
    match upsert s new_data with
    | some (persisted, s') =>
      (s', result.set item.id (OrderQueueStatus.PROCESSED, some persisted))
    | none => (s, result.set item.id (OrderQueueStatus.ERROR, none))

/-- Loop of `add_by_queue_items` over the batch, threading store and
result dict. -/
def addQueueItemsLoop (upsert : Upsert) (validator_block : Int)
    (validator_hotkey : String) (items : List OrderQueueSchema)
    (st : Store × ResultMap) : Store × ResultMap :=
  items.foldl (processQueueItem upsert validator_block validator_hotkey) st

/-- Method `add_by_queue_items(validator_block, validator_hotkey, items)`:
returns the result map and the final store state. -/
def add_by_queue_items (upsert : Upsert) (validator_block : Int)
    (validator_hotkey : String) (items : List OrderQueueSchema)
    (s : Store) : ResultMap × Store :=
  let (s', result) :=
    addQueueItemsLoop upsert validator_block validator_hotkey items
      (s, ResultMap.empty)
  (result, s')

/-- Schema `VisitorSchema`: a raw visit event as produced by the tracking front
door (`proxies/miner.py`). -/
structure VisitorSchema where
  id : String
  campaign_id : String
  campaign_item : String
  ip_address : String
  user_agent : String
  country_code : String
  deriving DecidableEq, Repr

/-- Modelled from the spec: the Event Normalizer's conversion
`BitAdsDataSchema(**visit.model_dump())` — a visit becomes a canonical
record with `salesStatus = NONE` and all sale/refund fields empty
(§4.2). -/
def visitToData (v : VisitorSchema) : BitAdsDataSchema :=
  { id := v.id
    campaign_id := v.campaign_id
    campaign_item := v.campaign_item
    ip_address := v.ip_address
    user_agent := v.user_agent
    country_code := v.country_code
    sales_status := SalesStatus.NONE
    sale_date := none
    order_info := none
    refund_info := none
    validator_block := 0
    validator_hotkey := ""
    sales := 0
    sale_amount := 0
    refund := 0 }

/-- Modelled from the spec: `bitads_data.filter_existing_ids(session, ids)`
— `filterExistingIds(idSet) -> subset present in store` (§4.1). -/
def filter_existing_ids (s : Store) (ids : List String) : List String :=
  ids.filter (fun id => (s id).isSome)

/-- Modelled from the spec: `bitads_data.add_data(session, data)` — a
plain insert into the store, used for ids known to be absent. -/
def add_data (s : Store) (r : BitAdsDataSchema) : Store := s.insert r

/-- Method `add_by_visits(visits)` (impl.py lines 82-90): compute the set of
already-present ids once, then insert only the visits whose id is not in
that set. The Python `visits` argument is a set; it is modelled as a list
in iteration order. -/
def add_by_visits (visits : List VisitorSchema) (s : Store) : Store :=
  let existed_ids := filter_existing_ids s (visits.map (·.id))
  visits.foldl
    (fun acc visit =>
      if visit.id ∈ existed_ids then acc
      else add_data acc (visitToData visit))
    s

/-- Schema `PaginationInfo` from `common.schemas.paged`. -/
structure PaginationInfo where
  total : Nat
  page_size : Int
  page_number : Int
  next_page_number : Int
  deriving DecidableEq, Repr

/-- The dict returned by `get_bitads_data_between_paged`. -/
structure PagedResult where
  data : List BitAdsDataSchema
  pagination : PaginationInfo
  deriving DecidableEq, Repr

/-- Method `get_bitads_data_between_paged(updated_from, updated_to, page_number,
page_size)` (impl.py lines 55-76): sets `limit = page_size`,
`offset = (page_number - 1) * page_size`, runs the range query
`bitads_data.get_data_between_paged` (external repository function,
abstracted as the `query limit offset` parameter returning data and total
count) and wraps the result with pagination metadata where
`next_page_number = page_number + 1`. -/
def get_bitads_data_between_paged
    (query : Int → Int → List BitAdsDataSchema × Nat)
    (page_number page_size : Int) : PagedResult :=
  let limit := page_size
  let offset := (page_number - 1) * page_size
  let (data, total) := query limit offset
  { data := data
    pagination :=
      { total := total
        page_size := page_size
        page_number := page_number
        next_page_number := page_number + 1 } }

/-- A campaign as scored by the miner; only its id feeds the score. -/
structure Campaign where
  id : String
  deriving DecidableEq, Repr

/-- One entry of `self.campaign_performance[campaign_id]`
(core.py lines 262-270). -/
structure CampaignPerformance where
  conversion_rate : ℚ
  refund_rate : ℚ
  avg_sale : ℚ
  total_sales : Nat
  total_visits : Nat
  total_refunds : Nat
  last_updated : Int
  deriving DecidableEq, Repr

/-- Per-campaign trailing-window aggregates pulled from the external
order-history/miner services: the recent sale amounts, the visit count
and the refund count for one campaign. -/
structure CampaignAggregates where
  sales : List ℚ
  visits : Nat
  refunds : Nat

/-- The trailing-window aggregate source
(`order_history_service.get_campaign_sales`,
`miner_service.get_campaign_visits`,
`order_history_service.get_campaign_refunds`), abstracted as a function
of the campaign id. -/
def AggregateSource : Type := String → CampaignAggregates

/-- The mutable optimizer state of `CoreMiner`: the campaign set stored
in the campaign service, the performance map, and the rate-limit
timestamps. The campaign service's `get_active_campaigns` /
`set_campaigns` pair is modelled from the spec (§6: active-campaign
source) as reading/replacing the `campaigns` field. -/
structure MinerState where
  campaigns : List Campaign
  campaign_performance : String → Option CampaignPerformance
  last_optimization_time : Int
  optimization_interval : Int

/-- The per-campaign metric computation of the recompute branch
(core.py lines 250-270): `conversion_rate = len(sales)/len(visits)` (0 if
no visits), `refund_rate = len(refunds)/len(sales)` (0 if no sales),
`avg_sale = sum(amounts)/len(sales)` (0 if no sales). -/
def computePerformance (agg : CampaignAggregates) (now : Int) :
    CampaignPerformance :=
  let conversion_rate : ℚ :=
    if agg.visits ≠ 0 then (agg.sales.length : ℚ) / (agg.visits : ℚ) else 0
  let refund_rate : ℚ :=
    if agg.sales.length ≠ 0 then (agg.refunds : ℚ) / (agg.sales.length : ℚ)
    else 0
  let avg_sale : ℚ :=
    if agg.sales.length ≠ 0 then agg.sales.sum / (agg.sales.length : ℚ)
    else 0
  { conversion_rate := conversion_rate
    refund_rate := refund_rate
    avg_sale := avg_sale
    total_sales := agg.sales.length
    total_visits := agg.visits
    total_refunds := agg.refunds
    last_updated := now }

/-- Function `calculate_campaign_score(campaign)` (core.py lines 273-295): with
weights 0.90 / 0.05 / 0.05, score
`min(avg_sale/500, 1)*0.90 + min(conversion_rate/0.05, 1)*0.05
 - refund_rate*0.05`, clamped below by 0; a campaign with no performance
entry scores 0. -/
def calculate_campaign_score (perfMap : String → Option CampaignPerformance)
    (campaign : Campaign) : ℚ :=
  match perfMap campaign.id with
  | none => 0
  | some perf =>
    let sales_weight : ℚ := 90 / 100
    let conv_weight : ℚ := 5 / 100
    let refund_weight : ℚ := 5 / 100
    let sales_score : ℚ := min (perf.avg_sale / 500) 1
    let conv_score : ℚ := min (perf.conversion_rate / (5 / 100)) 1
    let refund_penalty : ℚ := perf.refund_rate
    let score : ℚ :=
      sales_score * sales_weight + conv_score * conv_weight -
        refund_penalty * refund_weight
    max 0 score

/-- Method `_optimize_campaign_selection()` (core.py lines 237-316): read the
active campaigns; if less than `optimization_interval` has passed since
`last_optimization_time`, return them unchanged without touching any
other state; otherwise set `last_optimization_time = now`, refresh the
performance entry of each active campaign from the aggregate source, and
return the campaigns sorted by score descending (Python's `sorted` with
`reverse=True` is stable). Returns the selected list and the updated
state. -/
def optimize_campaign_selection (aggr : AggregateSource) (now : Int)
    (st : MinerState) : List Campaign × MinerState :=
  let active_campaigns := st.campaigns
  if now - st.last_optimization_time < st.optimization_interval then
    (active_campaigns, st)
  else
    let perfMap :=
      active_campaigns.foldl
        (fun m campaign =>
          fun k =>
            if k = campaign.id then
              some (computePerformance (aggr campaign.id) now)
            else m k)
        st.campaign_performance
    let sorted_campaigns :=
      active_campaigns.mergeSort
        (fun a b =>
          calculate_campaign_score perfMap b ≤
            calculate_campaign_score perfMap a)
    (sorted_campaigns,
      { st with
        campaign_performance := perfMap
        last_optimization_time := now })

/-- The campaign-selection part of one `_ping_bitads` cycle
(core.py lines 140-141): run the optimization and store the selected
list back through `campaign_service.set_campaigns`. -/
def pingCycle (aggr : AggregateSource) (now : Int) (st : MinerState) :
    List Campaign × MinerState :=
  let (optimized, st') := optimize_campaign_selection aggr now st
  (optimized, { st' with campaigns := optimized })

/-- Store well-formedness: the store is keyed by the record's own id
(the database table's primary key is the `id` column), so a record found
under key `k` has `id = k`. -/
def StoreWF (s : Store) : Prop :=
  ∀ k r, s k = some r → r.id = k

/-! ### Basic lemmas about the store and result map -/

theorem Store.insert_self (s : Store) (r : BitAdsDataSchema) :
    (s.insert r) r.id = some r := by
  simp [Store.insert]

theorem Store.insert_other (s : Store) (r : BitAdsDataSchema) (k : String)
    (h : k ≠ r.id) : (s.insert r) k = s k := by
  simp [Store.insert, h]

theorem StoreWF.insert {s : Store} (hs : StoreWF s) (r : BitAdsDataSchema) :
    StoreWF (s.insert r) := by
  intro k x hk
  unfold Store.insert at hk
  split at hk
  · rename_i h
    cases hk
    exact h.symm
  · exact hs k x hk

theorem StoreWF.add_or_update {s : Store} (hs : StoreWF s)
    (r : BitAdsDataSchema) : StoreWF (BitAds.add_or_update s r).2 := by
  unfold BitAds.add_or_update
  split
  · exact hs.insert _
  · exact hs.insert _

theorem ResultMap.set_self (m : ResultMap) (id : String)
    (v : OrderQueueStatus × Option BitAdsDataSchema) :
    (m.set id v) id = some v := by
  simp [ResultMap.set]

theorem ResultMap.set_other (m : ResultMap) (id : String)
    (v : OrderQueueStatus × Option BitAdsDataSchema) (k : String)
    (h : k ≠ id) : (m.set id v) k = m k := by
  simp [ResultMap.set, h]

/-! ### Characterization of one reconciliation step -/

/-- The merge the store performs on an `updatedRecord` is the identity:
the updated record is itself a copy of the existing row, so its origin
fields already agree with the stored ones. -/
theorem mergeRecord_updatedRecord (r0 : BitAdsDataSchema)
    (item : OrderQueueSchema) (vb : Int) (vh : String) :
    mergeRecord r0 (updatedRecord r0 item vb vh) = updatedRecord r0 item vb vh := by
  rfl

theorem updatedRecord_id (r0 : BitAdsDataSchema) (item : OrderQueueSchema)
    (vb : Int) (vh : String) : (updatedRecord r0 item vb vh).id = r0.id := by
  rfl

/-- Step characterization, unknown id: no write, `VISIT_NOT_FOUND`. -/
theorem processQueueItem_not_found (upsert : Upsert) (vb : Int) (vh : String)
    (s : Store) (m : ResultMap) (item : OrderQueueSchema)
    (h : get_data s item.id = none) :
    processQueueItem upsert vb vh (s, m) item
      = (s, m.set item.id (OrderQueueStatus.VISIT_NOT_FOUND, none)) := by
  simp [processQueueItem, h]

/-- Step characterization, known id, successful upsert through
`add_or_update`: the store gains the updated record at the item's id and
the result records `PROCESSED` with it. -/
theorem processQueueItem_found (vb : Int) (vh : String)
    (s : Store) (m : ResultMap) (item : OrderQueueSchema)
    (r0 : BitAdsDataSchema) (hr : get_data s item.id = some r0)
    (hid : r0.id = item.id) :
    processQueueItem upsertOk vb vh (s, m) item
      = (s.insert (updatedRecord r0 item vb vh),
         m.set item.id
           (OrderQueueStatus.PROCESSED, some (updatedRecord r0 item vb vh))) := by
  have hlook : s (updatedRecord r0 item vb vh).id = some r0 := by
    rw [updatedRecord_id, hid]; exact hr
  simp only [processQueueItem, hr, upsertOk, BitAds.add_or_update, hlook,
    mergeRecord_updatedRecord]

/-- Step characterization, known id, failing upsert: store untouched,
`ERROR` with no record. -/
theorem processQueueItem_error (bad : List String) (vb : Int) (vh : String)
    (s : Store) (m : ResultMap) (item : OrderQueueSchema)
    (r0 : BitAdsDataSchema) (hr : get_data s item.id = some r0)
    (hid : r0.id = item.id) (hbad : item.id ∈ bad) :
    processQueueItem (upsertFailingOn bad) vb vh (s, m) item
      = (s, m.set item.id (OrderQueueStatus.ERROR, none)) := by
  have hb : (updatedRecord r0 item vb vh).id ∈ bad := by
    rw [updatedRecord_id, hid]; exact hbad
  simp only [processQueueItem, hr, upsertFailingOn, if_pos hb]

/-! ### Loop-level lemmas -/

/-- An upsert backend that preserves store well-formedness. -/
def UpsertWF (up : Upsert) : Prop :=
  ∀ s r p s', StoreWF s → up s r = some (p, s') → StoreWF s'

theorem upsertOk_wf : UpsertWF upsertOk := by
  intro s r p s' hs h
  have h2 : BitAds.add_or_update s r = (p, s') := by
    simpa [upsertOk] using h
  have hres := hs.add_or_update r
  rw [h2] at hres
  exact hres

theorem upsertFailingOn_wf (bad : List String) :
    UpsertWF (upsertFailingOn bad) := by
  intro s r p s' hs h
  unfold upsertFailingOn at h
  split at h
  · cases h
  · have h2 : BitAds.add_or_update s r = (p, s') := by
      simpa using h
    have hres := hs.add_or_update r
    rw [h2] at hres
    exact hres

/-- Unfolding the batch loop one item at a time. -/
theorem addQueueItemsLoop_cons (up : Upsert) (vb : Int) (vh : String)
    (item : OrderQueueSchema) (rest : List OrderQueueSchema)
    (st : Store × ResultMap) :
    addQueueItemsLoop up vb vh (item :: rest) st
      = addQueueItemsLoop up vb vh rest (processQueueItem up vb vh st item) :=
  rfl

theorem addQueueItemsLoop_nil (up : Upsert) (vb : Int) (vh : String)
    (st : Store × ResultMap) :
    addQueueItemsLoop up vb vh [] st = st :=
  rfl

/-- Each step preserves store well-formedness and writes the store only
through the upsert. -/
theorem processQueueItem_wf (up : Upsert) (hup : UpsertWF up) (vb : Int)
    (vh : String) (s : Store) (m : ResultMap) (item : OrderQueueSchema)
    (hs : StoreWF s) :
    StoreWF (processQueueItem up vb vh (s, m) item).1 := by
  unfold processQueueItem
  cases hget : get_data s item.id with
  | none => simpa [hget] using hs
  | some r0 =>
    simp only [hget]
    cases hu : up s (updatedRecord r0 item vb vh) with
    | none => simpa [hu] using hs
    | some pr =>
      obtain ⟨p, s'⟩ := pr
      simpa [hu] using hup s _ p s' hs hu

theorem addQueueItemsLoop_wf (up : Upsert) (hup : UpsertWF up) (vb : Int)
    (vh : String) (items : List OrderQueueSchema) :
    ∀ (s : Store) (m : ResultMap), StoreWF s →
      StoreWF (addQueueItemsLoop up vb vh items (s, m)).1 := by
  induction items with
  | nil => intro s m hs; exact hs
  | cons item rest ih =>
    intro s m hs
    have hstep := processQueueItem_wf up hup vb vh s m item hs
    rw [addQueueItemsLoop_cons,
      show processQueueItem up vb vh (s, m) item
        = ((processQueueItem up vb vh (s, m) item).1,
           (processQueueItem up vb vh (s, m) item).2) from rfl]
    exact ih _ _ hstep

/-- A step never touches result-map keys other than the item's id. -/
theorem processQueueItem_result_frame (up : Upsert) (vb : Int) (vh : String)
    (s : Store) (m : ResultMap) (item : OrderQueueSchema) (k : String)
    (h : k ≠ item.id) :
    (processQueueItem up vb vh (s, m) item).2 k = m k := by
  unfold processQueueItem
  cases hget : get_data s item.id with
  | none => simp [hget, ResultMap.set, h]
  | some r0 =>
    cases hu : up s (updatedRecord r0 item vb vh) with
    | none => simp [hget, hu, ResultMap.set, h]
    | some pr =>
      obtain ⟨p, s'⟩ := pr
      simp [hget, hu, ResultMap.set, h]

/-- A batch tail never touches result-map keys outside its own item ids. -/
theorem addQueueItemsLoop_result_frame (up : Upsert) (vb : Int) (vh : String)
    (items : List OrderQueueSchema) :
    ∀ (s : Store) (m : ResultMap) (k : String),
      k ∉ items.map (fun it => it.id) →
      (addQueueItemsLoop up vb vh items (s, m)).2 k = m k := by
  induction items with
  | nil => intro s m k _; rfl
  | cons item rest ih =>
    intro s m k hk
    simp only [List.map_cons, List.mem_cons, not_or] at hk
    obtain ⟨hk1, hk2⟩ := hk
    have hstep := processQueueItem_result_frame up vb vh s m item k hk1
    rw [addQueueItemsLoop_cons,
      show processQueueItem up vb vh (s, m) item
        = ((processQueueItem up vb vh (s, m) item).1,
           (processQueueItem up vb vh (s, m) item).2) from rfl]
    rw [ih _ _ k hk2]
    exact hstep

/-- With the nominal backend, an id absent from the store stays absent
through a whole batch, and every item carrying that id resolves to
`VISIT_NOT_FOUND` in the final result map. -/
theorem addQueueItemsLoop_unknown_id (vb : Int) (vh : String)
    (items : List OrderQueueSchema) :
    ∀ (s : Store) (m : ResultMap) (id : String), StoreWF s → s id = none →
      (addQueueItemsLoop upsertOk vb vh items (s, m)).1 id = none ∧
      (addQueueItemsLoop upsertOk vb vh items (s, m)).2 id
        = if items.any (fun it => it.id = id) then
            some (OrderQueueStatus.VISIT_NOT_FOUND, none)
          else m id := by
  induction items with
  | nil =>
    intro s m id _ hid
    rw [addQueueItemsLoop_nil]
    exact ⟨hid, by simp⟩
  | cons item rest ih =>
    intro s m id hs hid
    by_cases hcase : (get_data s item.id).isSome
    · obtain ⟨r0, hr0⟩ := Option.isSome_iff_exists.mp hcase
      have hrid : r0.id = item.id := hs item.id r0 hr0
      have hr0' : s item.id = some r0 := hr0
      have hne : item.id ≠ id := by
        intro heq
        rw [heq, hid] at hr0'
        cases hr0'
      have hstep := processQueueItem_found vb vh s m item r0 hr0 hrid
      have hs' : StoreWF (s.insert (updatedRecord r0 item vb vh)) := hs.insert _
      have hid' : (s.insert (updatedRecord r0 item vb vh)) id = none := by
        rw [Store.insert_other]
        · exact hid
        · rw [updatedRecord_id, hrid]
          exact fun h => hne h.symm
      have hih := ih (s.insert (updatedRecord r0 item vb vh))
        (m.set item.id (OrderQueueStatus.PROCESSED, some (updatedRecord r0 item vb vh)))
        id hs' hid'
      rw [addQueueItemsLoop_cons, hstep]
      refine ⟨hih.1, ?_⟩
      rw [hih.2, ResultMap.set_other _ _ _ _ (Ne.symm hne)]
      simp [List.any_cons, hne]
    · have hget : get_data s item.id = none := by
        cases h : get_data s item.id with
        | none => rfl
        | some r => rw [h] at hcase; simp at hcase
      have hstep := processQueueItem_not_found upsertOk vb vh s m item hget
      have hih := ih s (m.set item.id (OrderQueueStatus.VISIT_NOT_FOUND, none)) id hs hid
      rw [addQueueItemsLoop_cons, hstep]
      refine ⟨hih.1, ?_⟩
      rw [hih.2]
      by_cases heq : item.id = id
      · subst heq
        by_cases hany : rest.any (fun it => it.id = item.id)
        · simp [List.any_cons, hany, ResultMap.set_self]
        · simp [List.any_cons, hany, ResultMap.set_self]
      · rw [ResultMap.set_other _ _ _ _ (fun h => heq h.symm)]
        simp [List.any_cons, heq]

/-- Projection lemma: `add_by_queue_items` splits into the loop's result map and final
store. -/
theorem add_by_queue_items_eq (up : Upsert) (vb : Int) (vh : String)
    (items : List OrderQueueSchema) (s : Store) :
    add_by_queue_items up vb vh items s
      = ((addQueueItemsLoop up vb vh items (s, ResultMap.empty)).2,
         (addQueueItemsLoop up vb vh items (s, ResultMap.empty)).1) :=
  rfl

theorem Store.insert_lookup_id (s : Store) (r : BitAdsDataSchema)
    (k : String) (h : r.id = k) : (s.insert r) k = some r := by
  subst h
  exact Store.insert_self s r

/-- Reconciling a single queue item against an existing record: the store
gains exactly the updated record and the result map records `PROCESSED`
with it. -/
theorem add_by_queue_items_single (vb : Int) (vh : String) (s : Store)
    (item : OrderQueueSchema) (r0 : BitAdsDataSchema)
    (hr : get_data s item.id = some r0) (hid : r0.id = item.id) :
    add_by_queue_items upsertOk vb vh [item] s
      = (ResultMap.empty.set item.id
           (OrderQueueStatus.PROCESSED, some (updatedRecord r0 item vb vh)),
         s.insert (updatedRecord r0 item vb vh)) := by
  rw [add_by_queue_items_eq, addQueueItemsLoop_cons,
    processQueueItem_found vb vh s ResultMap.empty item r0 hr hid,
    addQueueItemsLoop_nil]

theorem updatedRecord_sales (r0 : BitAdsDataSchema) (item : OrderQueueSchema)
    (vb : Int) (vh : String) :
    (updatedRecord r0 item vb vh).sales = item.order_info.items.length :=
  rfl

theorem updatedRecord_refund (r0 : BitAdsDataSchema) (item : OrderQueueSchema)
    (vb : Int) (vh : String) :
    (updatedRecord r0 item vb vh).refund
      = (match item.refund_info with
         | some ri => ri.items.length
         | none => 0) :=
  rfl

theorem updatedRecord_sale_amount (r0 : BitAdsDataSchema)
    (item : OrderQueueSchema) (vb : Int) (vh : String) :
    (updatedRecord r0 item vb vh).sale_amount
      = item.order_info.totalAmount -
          (match item.refund_info with
           | some ri => ri.totalAmount
           | none => 0) :=
  rfl

theorem updatedRecord_sales_status (r0 : BitAdsDataSchema)
    (item : OrderQueueSchema) (vb : Int) (vh : String) :
    (updatedRecord r0 item vb vh).sales_status
      = (if (match item.refund_info with
             | some ri => ri.items.length
             | none => 0) ≠ 0
         then SalesStatus.COMPLETED
         else r0.sales_status) :=
  rfl

/-! ### Sample data used by concrete witnesses -/

/-- A canonical record as created by a visit: status `NONE`, empty
sale/refund state. -/
def sampleVisitRecord : BitAdsDataSchema :=
  { id := "v1"
    campaign_id := "c1"
    campaign_item := "ci1"
    ip_address := "10.0.0.1"
    user_agent := "ua"
    country_code := "US"
    sales_status := SalesStatus.NONE
    sale_date := none
    order_info := none
    refund_info := none
    validator_block := 0
    validator_hotkey := ""
    sales := 0
    sale_amount := 0
    refund := 0 }

/-- A second visit record under id `v2`. -/
def sampleVisitRecord2 : BitAdsDataSchema :=
  { sampleVisitRecord with id := "v2", ip_address := "10.0.0.2" }

/-- A store holding exactly the record for id `v1`. -/
def sampleStore : Store :=
  fun k => if k = "v1" then some sampleVisitRecord else none

/-- A store holding records for ids `v1` and `v2`. -/
def sampleStore2 : Store :=
  fun k =>
    if k = "v1" then some sampleVisitRecord
    else if k = "v2" then some sampleVisitRecord2
    else none

theorem sampleStore_wf : StoreWF sampleStore := by
  intro k r h
  unfold sampleStore at h
  split at h
  · rename_i hk
    cases h
    exact hk.symm
  · cases h

theorem sampleStore2_wf : StoreWF sampleStore2 := by
  intro k r h
  unfold sampleStore2 at h
  split at h
  · rename_i hk
    cases h
    exact hk.symm
  · split at h
    · rename_i hk
      cases h
      exact hk.symm
    · cases h

/-- Sale of 100.00 over two line items with a 30.00 refund over one
line item, referencing visit `v1`. -/
def sampleSaleItem : OrderQueueSchema :=
  { id := "v1"
    order_info := { totalAmount := 100, items := ["i1", "i2"], sale_date := 5 }
    refund_info := some { totalAmount := 30, items := ["r1"] } }

/-- Sale of 50.00 with an 80.00 refund: the refund exceeds the sale. -/
def sampleOverRefundItem : OrderQueueSchema :=
  { id := "v1"
    order_info := { totalAmount := 50, items := ["i1"], sale_date := 5 }
    refund_info := some { totalAmount := 80, items := ["r1"] } }

/-- Refund info present but with an empty refunded-items list. -/
def sampleEmptyRefundItem : OrderQueueSchema :=
  { id := "v1"
    order_info := { totalAmount := 100, items := ["i1"], sale_date := 5 }
    refund_info := some { totalAmount := 30, items := [] } }

/-- A queue item referencing an id with no canonical record. -/
def sampleGhostItem : OrderQueueSchema :=
  { id := "ghost"
    order_info := { totalAmount := 10, items := ["i1"], sale_date := 5 }
    refund_info := none }

/-- A plain sale (no refund) referencing visit `v2`. -/
def sampleSaleItem2 : OrderQueueSchema :=
  { id := "v2"
    order_info := { totalAmount := 20, items := ["i1"], sale_date := 6 }
    refund_info := none }

/-! ### Claim theorems -/

/-- C1: for every queue item whose id has no canonical record at lookup
time, `add_by_queue_items` returns `VISIT_NOT_FOUND` with no record for
that id, performs no store write for that item, and never creates a
canonical record for an unknown id (the final store still has no record
under that id after the whole batch). -/
theorem add_by_queue_items_unknown_id_safety (vb : Int) (vh : String)
    (items : List OrderQueueSchema) (s : Store) (id : String)
    (hwf : StoreWF s) (hid : get_data s id = none) :
    (∀ (up : Upsert) (m : ResultMap) (item : OrderQueueSchema),
      item.id = id →
      processQueueItem up vb vh (s, m) item
        = (s, m.set id (OrderQueueStatus.VISIT_NOT_FOUND, none))) ∧
    (add_by_queue_items upsertOk vb vh items s).2 id = none ∧
    (id ∈ items.map (fun it => it.id) →
      (add_by_queue_items upsertOk vb vh items s).1 id
        = some (OrderQueueStatus.VISIT_NOT_FOUND, none)) := by
  have hloop := addQueueItemsLoop_unknown_id vb vh items s ResultMap.empty id hwf hid
  refine ⟨?_, ?_, ?_⟩
  · intro up m item hitem
    have h0 : get_data s item.id = none := by rw [hitem]; exact hid
    rw [processQueueItem_not_found up vb vh s m item h0, hitem]
  · rw [add_by_queue_items_eq]
    exact hloop.1
  · intro hmem
    rw [add_by_queue_items_eq]
    have hany : items.any (fun it => it.id = id) = true := by
      simp only [List.any_eq_true, decide_eq_true_eq]
      simp only [List.mem_map] at hmem
      obtain ⟨it, hit, hid2⟩ := hmem
      exact ⟨it, hit, hid2⟩
    show (addQueueItemsLoop upsertOk vb vh items (s, ResultMap.empty)).2 id
      = some (OrderQueueStatus.VISIT_NOT_FOUND, none)
    rw [hloop.2, if_pos hany]

/-- C1 witness: a batch containing an item for the unknown id `ghost`
against a store holding only `v1`. -/
theorem add_by_queue_items_unknown_id_safety_witness :
    StoreWF sampleStore ∧ get_data sampleStore "ghost" = none ∧
    (add_by_queue_items upsertOk 7 "vali" [sampleGhostItem] sampleStore).2
      "ghost" = none ∧
    (add_by_queue_items upsertOk 7 "vali" [sampleGhostItem] sampleStore).1
      "ghost" = some (OrderQueueStatus.VISIT_NOT_FOUND, none) := by
  have h := add_by_queue_items_unknown_id_safety 7 "vali" [sampleGhostItem]
    sampleStore "ghost" sampleStore_wf rfl
  exact ⟨sampleStore_wf, rfl, h.2.1, h.2.2 (by simp [sampleGhostItem])⟩

/-- C2: reconciliation is idempotent in the derived sale fields —
applying the same queue item twice (possibly with different validator
attribution) leaves the same `sale_amount`, `sales` and `refund` in the
stored record after the second application as after the first. -/
theorem add_by_queue_items_idempotent (vb₁ vb₂ : Int) (vh₁ vh₂ : String)
    (s : Store) (item : OrderQueueSchema) (r0 : BitAdsDataSchema)
    (hr : get_data s item.id = some r0) (hid : r0.id = item.id) :
    ∃ r₁ r₂,
      (add_by_queue_items upsertOk vb₁ vh₁ [item] s).2 item.id = some r₁ ∧
      (add_by_queue_items upsertOk vb₂ vh₂ [item]
          (add_by_queue_items upsertOk vb₁ vh₁ [item] s).2).2 item.id
        = some r₂ ∧
      r₂.sale_amount = r₁.sale_amount ∧
      r₂.sales = r₁.sales ∧
      r₂.refund = r₁.refund := by
  have h1 := add_by_queue_items_single vb₁ vh₁ s item r0 hr hid
  have hlook1 : (add_by_queue_items upsertOk vb₁ vh₁ [item] s).2 item.id
      = some (updatedRecord r0 item vb₁ vh₁) := by
    rw [h1]
    exact Store.insert_lookup_id s _ item.id (by rw [updatedRecord_id]; exact hid)
  have h2 := add_by_queue_items_single vb₂ vh₂
    (add_by_queue_items upsertOk vb₁ vh₁ [item] s).2 item
    (updatedRecord r0 item vb₁ vh₁) hlook1 (by rw [updatedRecord_id]; exact hid)
  refine ⟨updatedRecord r0 item vb₁ vh₁,
    updatedRecord (updatedRecord r0 item vb₁ vh₁) item vb₂ vh₂,
    hlook1, ?_, rfl, rfl, rfl⟩
  rw [h2]
  exact Store.insert_lookup_id _ _ item.id (by rw [updatedRecord_id, updatedRecord_id]; exact hid)

/-- C2 witness: the 100/30 sale item applied twice to the `v1` record,
with different validator attribution on the second pass. -/
theorem add_by_queue_items_idempotent_witness :
    get_data sampleStore sampleSaleItem.id = some sampleVisitRecord ∧
    sampleVisitRecord.id = sampleSaleItem.id ∧
    (∃ r₁ r₂,
      (add_by_queue_items upsertOk 7 "valA" [sampleSaleItem] sampleStore).2
        sampleSaleItem.id = some r₁ ∧
      (add_by_queue_items upsertOk 8 "valB" [sampleSaleItem]
          (add_by_queue_items upsertOk 7 "valA" [sampleSaleItem] sampleStore).2).2
        sampleSaleItem.id = some r₂ ∧
      r₂.sale_amount = r₁.sale_amount ∧
      r₂.sales = r₁.sales ∧
      r₂.refund = r₁.refund) :=
  ⟨rfl, rfl,
   add_by_queue_items_idempotent 7 8 "valA" "valB" sampleStore sampleSaleItem
     sampleVisitRecord rfl rfl⟩

/-- C3: the updated record carries `sales` = number of order items,
`refund` = number of refund items (0 when refund info is absent) and
`sale_amount` = order total minus refund total (0 when absent), and the
item resolves to `PROCESSED`; negative differences are stored as-is. -/
theorem add_by_queue_items_amounts (vb : Int) (vh : String) (s : Store)
    (item : OrderQueueSchema) (r0 : BitAdsDataSchema)
    (hr : get_data s item.id = some r0) (hid : r0.id = item.id) :
    ∃ r,
      (add_by_queue_items upsertOk vb vh [item] s).1 item.id
        = some (OrderQueueStatus.PROCESSED, some r) ∧
      (add_by_queue_items upsertOk vb vh [item] s).2 item.id = some r ∧
      r.sales = item.order_info.items.length ∧
      r.refund = (match item.refund_info with
                  | some ri => ri.items.length
                  | none => 0) ∧
      r.sale_amount = item.order_info.totalAmount -
        (match item.refund_info with
         | some ri => ri.totalAmount
         | none => 0) := by
  have h1 := add_by_queue_items_single vb vh s item r0 hr hid
  refine ⟨updatedRecord r0 item vb vh, ?_, ?_,
    updatedRecord_sales r0 item vb vh,
    updatedRecord_refund r0 item vb vh,
    updatedRecord_sale_amount r0 item vb vh⟩
  · rw [h1]
    exact ResultMap.set_self _ _ _
  · rw [h1]
    exact Store.insert_lookup_id s _ item.id (by rw [updatedRecord_id]; exact hid)

/-- C3 witness: sale total 100.00 / refund total 30.00 with 2 sale items
and 1 refund item yields `sale_amount = 70`, `sales = 2`, `refund = 1`;
a refund total of 80.00 against a sale of 50.00 yields `sale_amount =
-30`, still `PROCESSED`. -/
theorem add_by_queue_items_amounts_witness :
    (get_data sampleStore sampleSaleItem.id = some sampleVisitRecord ∧
     ∃ r,
       (add_by_queue_items upsertOk 7 "vali" [sampleSaleItem] sampleStore).1
         sampleSaleItem.id = some (OrderQueueStatus.PROCESSED, some r) ∧
       (add_by_queue_items upsertOk 7 "vali" [sampleSaleItem] sampleStore).2
         sampleSaleItem.id = some r ∧
       r.sale_amount = 70 ∧ r.sales = 2 ∧ r.refund = 1) ∧
    (∃ r,
       (add_by_queue_items upsertOk 7 "vali" [sampleOverRefundItem]
         sampleStore).1 sampleOverRefundItem.id
         = some (OrderQueueStatus.PROCESSED, some r) ∧
       r.sale_amount = -30) := by
  constructor
  · refine ⟨rfl, ?_⟩
    obtain ⟨r, hmap, hstore, hsales, hrefund, hamount⟩ :=
      add_by_queue_items_amounts 7 "vali" sampleStore sampleSaleItem
        sampleVisitRecord rfl rfl
    refine ⟨r, hmap, hstore, ?_, ?_, ?_⟩
    · rw [hamount]; norm_num [sampleSaleItem]
    · rw [hsales]; rfl
    · rw [hrefund]; rfl
  · obtain ⟨r, hmap, hstore, hsales, hrefund, hamount⟩ :=
      add_by_queue_items_amounts 7 "vali" sampleStore sampleOverRefundItem
        sampleVisitRecord rfl rfl
    refine ⟨r, hmap, ?_⟩
    rw [hamount]; norm_num [sampleOverRefundItem]

/-- C4: reconciling a queue item whose refund info has a non-empty items
list forces `sales_status = COMPLETED` regardless of the prior status,
and reconciliation never reverts a status to `NONE` (a `NONE` after
implies `NONE` before). -/
theorem add_by_queue_items_refund_completes (vb : Int) (vh : String)
    (s : Store) (item : OrderQueueSchema) (r0 : BitAdsDataSchema)
    (hr : get_data s item.id = some r0) (hid : r0.id = item.id) :
    ∃ r, (add_by_queue_items upsertOk vb vh [item] s).2 item.id = some r ∧
      (∀ ri, item.refund_info = some ri → ri.items ≠ [] →
        r.sales_status = SalesStatus.COMPLETED) ∧
      (r.sales_status = SalesStatus.NONE →
        r0.sales_status = SalesStatus.NONE) := by
  have h1 := add_by_queue_items_single vb vh s item r0 hr hid
  refine ⟨updatedRecord r0 item vb vh, ?_, ?_, ?_⟩
  · rw [h1]
    exact Store.insert_lookup_id s _ item.id (by rw [updatedRecord_id]; exact hid)
  · intro ri hri hne
    rw [updatedRecord_sales_status, hri]
    have : ri.items.length ≠ 0 := by
      intro h0
      exact hne (List.length_eq_zero.mp h0)
    simp [this]
  · intro hnone
    rw [updatedRecord_sales_status] at hnone
    by_cases hz : (match item.refund_info with
                   | some ri => ri.items.length
                   | none => 0) ≠ 0
    · rw [if_pos hz] at hnone
      cases hnone
    · rw [if_neg hz] at hnone
      exact hnone

/-- C4 witness: the 100/30 item (one refund line) applied to the `v1`
record, whose prior status is `NONE`, yields `COMPLETED`. -/
theorem add_by_queue_items_refund_completes_witness :
    get_data sampleStore sampleSaleItem.id = some sampleVisitRecord ∧
    ∃ r,
      (add_by_queue_items upsertOk 7 "vali" [sampleSaleItem] sampleStore).2
        sampleSaleItem.id = some r ∧
      r.sales_status = SalesStatus.COMPLETED := by
  obtain ⟨r, hstore, hforce, _⟩ :=
    add_by_queue_items_refund_completes 7 "vali" sampleStore sampleSaleItem
      sampleVisitRecord rfl rfl
  exact ⟨rfl, r, hstore, hforce _ rfl (by simp [sampleSaleItem])⟩

/-- C10: refund info present with an empty items list still subtracts the
refund total from the sale amount and stores `refund = 0`, but does not
force `sales_status` to `COMPLETED` — the stored status is the prior
one. -/
theorem add_by_queue_items_empty_refund_items (vb : Int) (vh : String)
    (s : Store) (item : OrderQueueSchema) (r0 : BitAdsDataSchema)
    (ri : RefundInfo) (hr : get_data s item.id = some r0)
    (hid : r0.id = item.id) (hri : item.refund_info = some ri)
    (hempty : ri.items = []) :
    ∃ r, (add_by_queue_items upsertOk vb vh [item] s).2 item.id = some r ∧
      r.sale_amount = item.order_info.totalAmount - ri.totalAmount ∧
      r.refund = 0 ∧
      r.sales_status = r0.sales_status := by
  have h1 := add_by_queue_items_single vb vh s item r0 hr hid
  refine ⟨updatedRecord r0 item vb vh, ?_, ?_, ?_, ?_⟩
  · rw [h1]
    exact Store.insert_lookup_id s _ item.id (by rw [updatedRecord_id]; exact hid)
  · rw [updatedRecord_sale_amount, hri]
  · rw [updatedRecord_refund, hri]
    show ri.items.length = 0
    rw [hempty]
    rfl
  · rw [updatedRecord_sales_status, hri]
    show (if ri.items.length ≠ 0 then SalesStatus.COMPLETED
          else r0.sales_status) = r0.sales_status
    rw [hempty]
    simp

/-- C10 witness: refund info `{total 30, items []}` on a 100.00 sale
against the `NONE`-status `v1` record: stored amount 70, refund count 0,
status still `NONE`. -/
theorem add_by_queue_items_empty_refund_items_witness :
    get_data sampleStore sampleEmptyRefundItem.id = some sampleVisitRecord ∧
    ∃ r,
      (add_by_queue_items upsertOk 7 "vali" [sampleEmptyRefundItem]
        sampleStore).2 sampleEmptyRefundItem.id = some r ∧
      r.sale_amount = 70 ∧ r.refund = 0 ∧
      r.sales_status = SalesStatus.NONE := by
  obtain ⟨r, hstore, hamount, hrefund, hstatus⟩ :=
    add_by_queue_items_empty_refund_items 7 "vali" sampleStore
      sampleEmptyRefundItem sampleVisitRecord
      { totalAmount := 30, items := [] } rfl rfl rfl rfl
  refine ⟨rfl, r, hstore, ?_, hrefund, ?_⟩
  · rw [hamount]; norm_num [sampleEmptyRefundItem]
  · rw [hstatus]; rfl

/-- C5: per-item failure isolation — when the upsert raises on one item
(referencing an existing record), the batch records `ERROR` with no
record for that item, keeps the store unchanged by it, and continues
processing the remaining items from that same state; the item's final
result-map entry is `ERROR` with no record whenever no later item shares
its id. -/
theorem add_by_queue_items_failure_isolation (bad : List String) (vb : Int)
    (vh : String) (s0 : Store) (pre rest : List OrderQueueSchema)
    (item : OrderQueueSchema) (r0 : BitAdsDataSchema) (hwf : StoreWF s0)
    (hr : (addQueueItemsLoop (upsertFailingOn bad) vb vh pre
        (s0, ResultMap.empty)).1 item.id = some r0)
    (hbad : item.id ∈ bad) :
    addQueueItemsLoop (upsertFailingOn bad) vb vh (pre ++ item :: rest)
        (s0, ResultMap.empty)
      = addQueueItemsLoop (upsertFailingOn bad) vb vh rest
          ((addQueueItemsLoop (upsertFailingOn bad) vb vh pre
              (s0, ResultMap.empty)).1,
           ((addQueueItemsLoop (upsertFailingOn bad) vb vh pre
              (s0, ResultMap.empty)).2).set item.id
             (OrderQueueStatus.ERROR, none)) ∧
    (item.id ∉ rest.map (fun it => it.id) →
      (add_by_queue_items (upsertFailingOn bad) vb vh (pre ++ item :: rest)
        s0).1 item.id = some (OrderQueueStatus.ERROR, none)) := by
  have hmidwf : StoreWF (addQueueItemsLoop (upsertFailingOn bad) vb vh pre
      (s0, ResultMap.empty)).1 :=
    addQueueItemsLoop_wf _ (upsertFailingOn_wf bad) vb vh pre s0
      ResultMap.empty hwf
  have hid : r0.id = item.id := hmidwf item.id r0 hr
  have hstep := processQueueItem_error bad vb vh
    (addQueueItemsLoop (upsertFailingOn bad) vb vh pre (s0, ResultMap.empty)).1
    (addQueueItemsLoop (upsertFailingOn bad) vb vh pre (s0, ResultMap.empty)).2
    item r0 hr hid hbad
  have hsplit : addQueueItemsLoop (upsertFailingOn bad) vb vh
      (pre ++ item :: rest) (s0, ResultMap.empty)
    = addQueueItemsLoop (upsertFailingOn bad) vb vh rest
        ((addQueueItemsLoop (upsertFailingOn bad) vb vh pre
            (s0, ResultMap.empty)).1,
         ((addQueueItemsLoop (upsertFailingOn bad) vb vh pre
            (s0, ResultMap.empty)).2).set item.id
           (OrderQueueStatus.ERROR, none)) := by
    unfold addQueueItemsLoop
    rw [List.foldl_append, List.foldl_cons]
    unfold addQueueItemsLoop at hstep
    rw [show List.foldl (processQueueItem (upsertFailingOn bad) vb vh)
          (s0, ResultMap.empty) pre
        = ((List.foldl (processQueueItem (upsertFailingOn bad) vb vh)
              (s0, ResultMap.empty) pre).1,
           (List.foldl (processQueueItem (upsertFailingOn bad) vb vh)
              (s0, ResultMap.empty) pre).2) from rfl, hstep]
  refine ⟨hsplit, ?_⟩
  intro hnot
  rw [add_by_queue_items_eq]
  show (addQueueItemsLoop (upsertFailingOn bad) vb vh (pre ++ item :: rest)
      (s0, ResultMap.empty)).2 item.id = some (OrderQueueStatus.ERROR, none)
  rw [hsplit,
    addQueueItemsLoop_result_frame (upsertFailingOn bad) vb vh rest _ _
      item.id hnot]
  exact ResultMap.set_self _ _ _

/-- C5 witness: a two-item batch against a store holding `v1` and `v2`,
where persisting `v1` fails; `v1` resolves to `ERROR` with no record and
the following `v2` item is still processed to `PROCESSED`. -/
theorem add_by_queue_items_failure_isolation_witness :
    StoreWF sampleStore2 ∧
    (addQueueItemsLoop (upsertFailingOn ["v1"]) 7 "vali" []
      (sampleStore2, ResultMap.empty)).1 sampleSaleItem.id
      = some sampleVisitRecord ∧
    sampleSaleItem.id ∈ ["v1"] ∧
    (sampleSaleItem.id ∉ [sampleSaleItem2].map (fun it => it.id) →
      (add_by_queue_items (upsertFailingOn ["v1"]) 7 "vali"
        ([] ++ sampleSaleItem :: [sampleSaleItem2]) sampleStore2).1
        sampleSaleItem.id = some (OrderQueueStatus.ERROR, none)) ∧
    (add_by_queue_items (upsertFailingOn ["v1"]) 7 "vali"
      [sampleSaleItem, sampleSaleItem2] sampleStore2).1 "v1"
      = some (OrderQueueStatus.ERROR, none) ∧
    ((add_by_queue_items (upsertFailingOn ["v1"]) 7 "vali"
      [sampleSaleItem, sampleSaleItem2] sampleStore2).1 "v2").map Prod.fst
      = some OrderQueueStatus.PROCESSED := by
  have h := add_by_queue_items_failure_isolation ["v1"] 7 "vali" sampleStore2
    [] [sampleSaleItem2] sampleSaleItem sampleVisitRecord sampleStore2_wf
    rfl (by simp [sampleSaleItem])
  refine ⟨sampleStore2_wf, rfl, by simp [sampleSaleItem], h.2, ?_, ?_⟩
  · exact h.2 (by simp [sampleSaleItem, sampleSaleItem2])
  · rfl

/-- C6: scorer rate limiting — a call within the refresh interval
returns the stored campaign list unchanged for every aggregate source
(so no per-campaign aggregates are consulted) and leaves the whole state
(including `last_optimization_time`) untouched; two ping cycles within
the interval return identical ranked output; `last_optimization_time`
changes only when the interval has elapsed; and the list a cycle stores
is exactly the list it returns (so an idle call returns the previous
ranked list). -/
theorem optimize_campaign_selection_rate_limited
    (aggr aggr₂ : AggregateSource) (now now₂ : Int) (st : MinerState)
    (h : now - st.last_optimization_time < st.optimization_interval) :
    optimize_campaign_selection aggr now st = (st.campaigns, st) ∧
    pingCycle aggr now st = (st.campaigns, st) ∧
    (now₂ - st.last_optimization_time < st.optimization_interval →
      (pingCycle aggr₂ now₂ (pingCycle aggr now st).2).1
        = (pingCycle aggr now st).1) ∧
    (∀ (a : AggregateSource) (t : Int) (σ : MinerState),
      (optimize_campaign_selection a t σ).2.last_optimization_time
        ≠ σ.last_optimization_time →
      σ.optimization_interval ≤ t - σ.last_optimization_time) ∧
    (∀ (a : AggregateSource) (t : Int) (σ : MinerState),
      ((pingCycle a t σ).2).campaigns = (pingCycle a t σ).1) := by
  have hopt : optimize_campaign_selection aggr now st = (st.campaigns, st) := by
    unfold optimize_campaign_selection
    rw [if_pos h]
  have hping : pingCycle aggr now st = (st.campaigns, st) := by
    unfold pingCycle
    rw [hopt]
  refine ⟨hopt, hping, ?_, ?_, ?_⟩
  · intro h₂
    rw [hping]
    have hopt₂ : optimize_campaign_selection aggr₂ now₂ st
        = (st.campaigns, st) := by
      unfold optimize_campaign_selection
      rw [if_pos h₂]
    unfold pingCycle
    rw [hopt₂]
  · intro a t σ hne
    by_contra hlt
    apply hne
    have hcond : t - σ.last_optimization_time < σ.optimization_interval := by
      omega
    unfold optimize_campaign_selection
    rw [if_pos hcond]
  · intro a t σ
    unfold pingCycle
    rw [show optimize_campaign_selection a t σ
        = ((optimize_campaign_selection a t σ).1,
           (optimize_campaign_selection a t σ).2) from rfl]

/-- Sample aggregate source (no activity anywhere). -/
def sampleAggregates : AggregateSource :=
  fun _ => { sales := [], visits := 0, refunds := 0 }

/-- Sample optimizer state: one stored campaign, 30-minute interval
(1800 s), last run at time 0. -/
def sampleMinerState : MinerState :=
  { campaigns := [{ id := "c1" }, { id := "c2" }]
    campaign_performance := fun _ => none
    last_optimization_time := 0
    optimization_interval := 1800 }

/-- C6 witness: a call at time 600, within the 1800-second interval of
the last run at time 0, returns the stored list and state unchanged. -/
theorem optimize_campaign_selection_rate_limited_witness :
    (600 : Int) - sampleMinerState.last_optimization_time <
      sampleMinerState.optimization_interval ∧
    optimize_campaign_selection sampleAggregates 600 sampleMinerState
      = (sampleMinerState.campaigns, sampleMinerState) ∧
    (pingCycle sampleAggregates 900
        (pingCycle sampleAggregates 600 sampleMinerState).2).1
      = (pingCycle sampleAggregates 600 sampleMinerState).1 := by
  have h := optimize_campaign_selection_rate_limited sampleAggregates
    sampleAggregates 600 900 sampleMinerState (by decide)
  exact ⟨by decide, h.1, h.2.2.1 (by decide)⟩

/-- C7: the composite campaign score is
`min(avgSale/500, 1)·0.90 + min(conversionRate/0.05, 1)·0.05
 − refundRate·0.05` floored at 0; with `avgSale = 10000`,
`conversionRate = 1` and `refundRate = 0` it is exactly 0.95 (both
ratios clamp to 1); and no campaign's score is ever negative. -/
theorem calculate_campaign_score_spec
    (perfMap : String → Option CampaignPerformance) (c : Campaign)
    (perf : CampaignPerformance) (h : perfMap c.id = some perf) :
    calculate_campaign_score perfMap c
      = max 0 (min (perf.avg_sale / 500) 1 * (90 / 100)
          + min (perf.conversion_rate / (5 / 100)) 1 * (5 / 100)
          - perf.refund_rate * (5 / 100)) ∧
    (perf.avg_sale = 10000 → perf.conversion_rate = 1 →
      perf.refund_rate = 0 →
      calculate_campaign_score perfMap c = 95 / 100) ∧
    (∀ (pm : String → Option CampaignPerformance) (c₂ : Campaign),
      0 ≤ calculate_campaign_score pm c₂) := by
  have hformula : calculate_campaign_score perfMap c
      = max 0 (min (perf.avg_sale / 500) 1 * (90 / 100)
          + min (perf.conversion_rate / (5 / 100)) 1 * (5 / 100)
          - perf.refund_rate * (5 / 100)) := by
    unfold calculate_campaign_score
    rw [h]
  refine ⟨hformula, ?_, ?_⟩
  · intro h1 h2 h3
    rw [hformula, h1, h2, h3]
    have hmin1 : min ((10000 : ℚ) / 500) 1 = 1 := by
      rw [min_eq_right]
      norm_num
    have hmin2 : min ((1 : ℚ) / (5 / 100)) 1 = 1 := by
      rw [min_eq_right]
      norm_num
    rw [hmin1, hmin2]
    rw [max_eq_right]
    · norm_num
    · norm_num
  · intro pm c₂
    unfold calculate_campaign_score
    cases hpc : pm c₂.id with
    | none => exact le_refl 0
    | some p => exact le_max_left 0 _

/-- Performance entry with saturating average sale and conversion rate
and no refunds. -/
def samplePerformance : CampaignPerformance :=
  { conversion_rate := 1
    refund_rate := 0
    avg_sale := 10000
    total_sales := 5
    total_visits := 5
    total_refunds := 0
    last_updated := 0 }

/-- Performance map holding `samplePerformance` for campaign `c1`. -/
def samplePerformanceMap : String → Option CampaignPerformance :=
  fun k => if k = "c1" then some samplePerformance else none

/-- C7 witness: campaign `c1` with avg sale 10000, conversion rate 1 and
refund rate 0 scores exactly 95/100. -/
theorem calculate_campaign_score_spec_witness :
    samplePerformanceMap "c1" = some samplePerformance ∧
    calculate_campaign_score samplePerformanceMap { id := "c1" } = 95 / 100 :=
  ⟨rfl,
   (calculate_campaign_score_spec samplePerformanceMap { id := "c1" }
     samplePerformance rfl).2.1 rfl rfl rfl⟩

/-! ### Lemmas for the visit-ingestion fold -/

theorem visitsFoldl_lookup (ex : List String) :
    ∀ (vs : List VisitorSchema) (acc : Store) (k : String),
      (vs.foldl
        (fun a v => if v.id ∈ ex then a else add_data a (visitToData v))
        acc) k = acc k
      ∨ ∃ v, v ∈ vs ∧ v.id = k ∧ v.id ∉ ex := by
  intro vs
  induction vs with
  | nil => intro acc k; exact Or.inl rfl
  | cons v rest ih =>
    intro acc k
    rw [List.foldl_cons]
    by_cases hv : v.id ∈ ex
    · rw [if_pos hv]
      rcases ih acc k with hl | ⟨v', hmem, hvk, hvex⟩
      · exact Or.inl hl
      · exact Or.inr ⟨v', List.mem_cons_of_mem v hmem, hvk, hvex⟩
    · rw [if_neg hv]
      rcases ih (add_data acc (visitToData v)) k with hl | ⟨v', hmem, hvk, hvex⟩
      · by_cases hk : k = v.id
        · exact Or.inr ⟨v, List.mem_cons_self v rest, hk.symm, hv⟩
        · left
          rw [hl]
          exact Store.insert_other acc (visitToData v) k hk
      · exact Or.inr ⟨v', List.mem_cons_of_mem v hmem, hvk, hvex⟩

theorem visitsFoldl_ne_none (ex : List String) :
    ∀ (vs : List VisitorSchema) (acc : Store) (k : String), acc k ≠ none →
      (vs.foldl
        (fun a v => if v.id ∈ ex then a else add_data a (visitToData v))
        acc) k ≠ none := by
  intro vs
  induction vs with
  | nil => intro acc k hk; exact hk
  | cons v rest ih =>
    intro acc k hk
    rw [List.foldl_cons]
    by_cases hv : v.id ∈ ex
    · rw [if_pos hv]
      exact ih acc k hk
    · rw [if_neg hv]
      apply ih
      by_cases hkv : k = v.id
      · rw [show add_data acc (visitToData v) k = some (visitToData v) from
          Store.insert_lookup_id acc (visitToData v) k hkv.symm]
        simp
      · rw [show add_data acc (visitToData v) k = acc k from
          Store.insert_other acc (visitToData v) k hkv]
        exact hk

theorem visitsFoldl_writes (ex : List String) (vs : List VisitorSchema)
    (acc : Store) (v : VisitorSchema) (hv : v ∈ vs) (hex : v.id ∉ ex) :
    (vs.foldl
      (fun a u => if u.id ∈ ex then a else add_data a (visitToData u))
      acc) v.id ≠ none := by
  obtain ⟨l1, l2, rfl⟩ := List.append_of_mem hv
  rw [List.foldl_append, List.foldl_cons, if_neg hex]
  apply visitsFoldl_ne_none
  rw [show add_data (l1.foldl
      (fun a u => if u.id ∈ ex then a else add_data a (visitToData u)) acc)
      (visitToData v) v.id = some (visitToData v) from
    Store.insert_lookup_id _ (visitToData v) v.id rfl]
  simp

/-- C8: dedup on bulk visit insert — records already in the store are
left completely unchanged, any id the call changes was absent before and
belongs to one of the incoming visits, and a visit whose id was absent
does get written. -/
theorem add_by_visits_dedup (visits : List VisitorSchema) (s : Store)
    (id : String) :
    (∀ r, s id = some r → add_by_visits visits s id = some r) ∧
    (add_by_visits visits s id ≠ s id →
      s id = none ∧ id ∈ visits.map (fun v => v.id)) ∧
    (∀ v, v ∈ visits → s v.id = none → add_by_visits visits s v.id ≠ none) := by
  have hunfold : ∀ (k : String), add_by_visits visits s k
      = (visits.foldl
          (fun a v =>
            if v.id ∈ filter_existing_ids s (visits.map (fun w => w.id))
            then a else add_data a (visitToData v)) s) k :=
    fun k => rfl
  refine ⟨?_, ?_, ?_⟩
  · intro r hr
    rw [hunfold]
    rcases visitsFoldl_lookup (filter_existing_ids s (visits.map (fun w => w.id)))
      visits s id with hl | ⟨v, hmem, hvk, hvex⟩
    · rw [hl]; exact hr
    · exfalso
      apply hvex
      unfold filter_existing_ids
      rw [List.mem_filter]
      constructor
      · exact List.mem_map.mpr ⟨v, hmem, rfl⟩
      · rw [hvk, hr]
        rfl
  · intro hne
    rw [hunfold] at hne
    rcases visitsFoldl_lookup (filter_existing_ids s (visits.map (fun w => w.id)))
      visits s id with hl | ⟨v, hmem, hvk, hvex⟩
    · exact absurd hl hne
    · constructor
      · cases hsid : s id with
        | none => rfl
        | some r =>
          exfalso
          apply hvex
          unfold filter_existing_ids
          rw [List.mem_filter]
          constructor
          · exact List.mem_map.mpr ⟨v, hmem, rfl⟩
          · rw [hvk, hsid]
            rfl
      · exact List.mem_map.mpr ⟨v, hmem, hvk⟩
  · intro v hv hnone
    rw [hunfold]
    apply visitsFoldl_writes
    · exact hv
    · unfold filter_existing_ids
      rw [List.mem_filter]
      intro ⟨_, hsome⟩
      rw [hnone] at hsome
      cases hsome

/-- A visit whose id `v1` already has a stored record (note the
different ip, which must not overwrite the stored one). -/
def sampleExistingVisit : VisitorSchema :=
  { id := "v1"
    campaign_id := "c9"
    campaign_item := "ci9"
    ip_address := "99.99.99.99"
    user_agent := "other"
    country_code := "DE" }

/-- A visit with a fresh id `v3`. -/
def sampleNewVisit : VisitorSchema :=
  { id := "v3"
    campaign_id := "c1"
    campaign_item := "ci3"
    ip_address := "10.0.0.3"
    user_agent := "ua"
    country_code := "US" }

/-- C8 witness: inserting a batch containing an already-present id `v1`
and a fresh id `v3` leaves the stored `v1` record unchanged and writes
`v3`. -/
theorem add_by_visits_dedup_witness :
    sampleStore "v1" = some sampleVisitRecord ∧
    add_by_visits [sampleExistingVisit, sampleNewVisit] sampleStore "v1"
      = some sampleVisitRecord ∧
    sampleStore "v3" = none ∧
    add_by_visits [sampleExistingVisit, sampleNewVisit] sampleStore "v3"
      ≠ none := by
  have h := add_by_visits_dedup [sampleExistingVisit, sampleNewVisit]
    sampleStore "v1"
  have h3 := add_by_visits_dedup [sampleExistingVisit, sampleNewVisit]
    sampleStore "v3"
  refine ⟨rfl, h.1 sampleVisitRecord rfl, rfl, ?_⟩
  exact h3.2.2 sampleNewVisit (by simp) rfl

/-- C9: pagination math — the paged range query is issued with
`limit = page_size` and `offset = (page_number − 1) · page_size` (page 3
with size 500 queries offset 1000, limit 500), and the returned metadata
always has `next_page_number = page_number + 1`, whatever the query
returns. -/
theorem get_bitads_data_between_paged_spec
    (query : Int → Int → List BitAdsDataSchema × Nat)
    (page_number page_size : Int) :
    get_bitads_data_between_paged query page_number page_size
      = { data := (query page_size ((page_number - 1) * page_size)).1
          pagination :=
            { total := (query page_size ((page_number - 1) * page_size)).2
              page_size := page_size
              page_number := page_number
              next_page_number := page_number + 1 } } ∧
    (get_bitads_data_between_paged query 3 500).data = (query 500 1000).1 ∧
    (∀ (p sz : Int),
      (get_bitads_data_between_paged query p sz).pagination.next_page_number
        = p + 1) := by
  refine ⟨rfl, ?_, fun p sz => rfl⟩
  show (query 500 ((3 - 1) * 500)).1 = (query 500 1000).1
  norm_num

end BitAds
